import Mathlib

/-!
Shallow embedding of the NOVA log acquisition and parsing pipeline
(src/backend/app/services/log_parser.py, log_processor.py, log_collector.py)
together with proofs of the spec's testable properties.

Strings from the Python source are modelled as `List Char`; bytes as
`List Nat`.  Python's `re` usage is modelled with a small derivative-based
regular-expression engine (for the boolean `search`/`match` calls) and with
hand-coded position scanners for the few patterns whose capture groups are
used.  Wall-clock reads (`datetime.now()`) and the host's UTC offset (which
enters through `datetime(...).timestamp()` on naive datetimes, interpreted
in the host's local timezone by Python) are explicit parameters.
-/

namespace Nova

abbrev Str := List Char

/-- Python `\s` (ASCII model): space, tab, newline, carriage return,
vertical tab, form feed. -/
def isPySpace (c : Char) : Bool :=
  c = ' ' || c = '\t' || c = '\n' || c = '\r' || c = Char.ofNat 11 || c = Char.ofNat 12

/-- Python `\w` (ASCII model): letters, digits, underscore. -/
def isWordC (c : Char) : Bool := c.isAlphanum || c = '_'

def isDigitC (c : Char) : Bool := c.isDigit

def lowerS (s : Str) : Str := s.map Char.toLower

def upperS (s : Str) : Str := s.map Char.toUpper

/-- Python `str.strip()` (ASCII whitespace model). -/
def pyStrip (s : Str) : Str :=
  ((s.dropWhile isPySpace).reverse.dropWhile isPySpace).reverse

/-- Python `content.split(sep)` for a one-character separator:
keeps empty pieces, `"".split(sep)` gives `[""]`. -/
def splitOnCh (sep : Char) : Str → List Str
  | [] => [[]]
  | c :: rest =>
    if c = sep then [] :: splitOnCh sep rest
    else
      match splitOnCh sep rest with
      | [] => [[c]]
      | h :: t => (c :: h) :: t

/-- `content.split('\n')` -/
def splitNL (s : Str) : List Str := splitOnCh '\n' s

/-- Python `needle in hay` on strings (substring test). -/
def isSub (needle hay : Str) : Bool :=
  match hay with
  | [] => decide (needle = [])
  | _ :: t => decide (hay.take needle.length = needle) || isSub needle t

/-- `os.path.basename` (POSIX): the part after the last slash. -/
def basename (p : Str) : Str := (splitOnCh '/' p).getLastD []

/-- Case-insensitive prefix test against an (already lowercase) literal. -/
def startsCI (lit : Str) (s : Str) : Bool := lowerS (s.take lit.length) = lit

/-- Scan the positions of `s` left to right and return the first position
where `f` succeeds (the leftmost-match discipline of `re.search`). -/
def findLeftmost (f : Str → Option α) : Str → Option α
  | [] => f []
  | s@(_ :: cs) => (f s).orElse fun _ => findLeftmost f cs

/-! ### A tiny regular-expression engine (Brzozowski derivatives)

Only the features the source's patterns need: character classes,
concatenation, alternation, Kleene star.  `mstart r s` is `re.match`
(a match starting at position 0, possibly proper prefix); `found r s`
is `re.search` (a match starting anywhere). -/

inductive RE where
  | nul : RE
  | eps : RE
  | cls : (Char → Bool) → RE
  | cat : RE → RE → RE
  | alt : RE → RE → RE
  | star : RE → RE

def RE.nullable : RE → Bool
  | .nul => false
  | .eps => true
  | .cls _ => false
  | .cat a b => a.nullable && b.nullable
  | .alt a b => a.nullable || b.nullable
  | .star _ => true

def mkCat : RE → RE → RE
  | .nul, _ => .nul
  | .eps, b => b
  | _, .nul => .nul
  | a, .eps => a
  | a, b => .cat a b

def mkAlt : RE → RE → RE
  | .nul, b => b
  | a, .nul => a
  | a, b => .alt a b

def RE.deriv : RE → Char → RE
  | .nul, _ => .nul
  | .eps, _ => .nul
  | .cls p, c => if p c then .eps else .nul
  | .cat a b, c =>
      if a.nullable then mkAlt (mkCat (a.deriv c) b) (b.deriv c)
      else mkCat (a.deriv c) b
  | .alt a b, c => mkAlt (a.deriv c) (b.deriv c)
  | .star a, c => mkCat (a.deriv c) (.star a)

/-- Does some prefix of `s` (possibly empty, possibly all of `s`) match `r`?
This is Python's `re.match` viewed as a boolean.  (The `nul` case is an
evaluation short cut: a failed derivative can never match.) -/
def RE.mstart : RE → Str → Bool
  | .nul, _ => false
  | r, [] => r.nullable
  | r, c :: cs => r.nullable || (r.deriv c).mstart cs

/-- Does a match of `r` start at any position of `s`?  Python's `re.search`
viewed as a boolean. -/
def RE.found : RE → Str → Bool
  | r, [] => r.nullable
  | r, s@(_ :: cs) => r.mstart s || r.found cs

/-! Combinators used to transcribe the source's pattern strings. -/

def reC (p : Char → Bool) : RE := .cls p
def reCh (c : Char) : RE := .cls (· = c)
def reLit (s : String) : RE := s.toList.foldr (fun c r => mkCat (reCh c) r) .eps
def reSeq (rs : List RE) : RE := rs.foldr mkCat .eps
def reOpt (r : RE) : RE := .alt .eps r
def rePlus (r : RE) : RE := .cat r (.star r)
def reRep (n : Nat) (r : RE) : RE := (List.replicate n r).foldr mkCat .eps
/-- `\s+` -/
def reWS1 : RE := rePlus (reC isPySpace)
/-- `\s*` -/
def reWS0 : RE := .star (reC isPySpace)
/-- `\d` -/
def reDig : RE := reC isDigitC
/-- `.` (matches anything except a newline) -/
def reDot : RE := reC (· ≠ '\n')
/-- `.*` -/
def reDotStar : RE := .star reDot

/-- `a.*b` -/
def reDS (a b : RE) : RE := reSeq [a, reDotStar, b]
/-- `a\s+b` -/
def reW (a b : RE) : RE := reSeq [a, reWS1, b]
/-- `a\s*b` -/
def reW0 (a b : RE) : RE := reSeq [a, reWS0, b]
/-- literal words joined by `\s+` -/
def wsL (ss : List String) : RE :=
  match ss with
  | [] => .eps
  | [s] => reLit s
  | s :: rest => reW (reLit s) (wsL rest)
/-- literal pieces joined by `.*` -/
def dsL (ss : List String) : RE :=
  match ss with
  | [] => .eps
  | [s] => reLit s
  | s :: rest => reDS (reLit s) (dsL rest)

def strL (s : String) : Str := s.toList

/-! ### LogParser pattern tables (log_parser.py)

All tables below transcribe the class constants of `LogParser` in source
order.  Patterns applied case-insensitively (severity keywords, event
types, filename patterns) are stored lowercase and matched against
lowercased input, which is equivalent for this ASCII pattern set. -/

def isIWEF (c : Char) : Bool := c = 'I' || c = 'W' || c = 'E' || c = 'F'

/-- `^[IWEF]\d{8}\s` -/
def reGlog8 : RE := reSeq [reC isIWEF, reRep 8 reDig, reC isPySpace]
/-- `^[IWEF]\d{4}\s` -/
def reGlog4 : RE := reSeq [reC isIWEF, reRep 4 reDig, reC isPySpace]
/-- `^\[\d{4}-\d{2}-\d{2}` -/
def reBrDate : RE :=
  reSeq [reCh '[', reRep 4 reDig, reCh '-', reRep 2 reDig, reCh '-', reRep 2 reDig]
/-- `^\d{4}-\d{2}-\d{2}` -/
def reDateStart : RE :=
  reSeq [reRep 4 reDig, reCh '-', reRep 2 reDig, reCh '-', reRep 2 reDig]

/-- `[IWEF](\d{8})\s+(\d{2}:\d{2}:\d{2})` -/
def tsGlogFull : RE :=
  reSeq [reC isIWEF, reRep 8 reDig, reWS1,
         reRep 2 reDig, reCh ':', reRep 2 reDig, reCh ':', reRep 2 reDig]
/-- `(\d{4}-\d{2}-\d{2}T\d{2}:\d{2}:\d{2}(?:\.\d+)?Z?)` -/
def tsIso : RE :=
  reSeq [reRep 4 reDig, reCh '-', reRep 2 reDig, reCh '-', reRep 2 reDig, reCh 'T',
         reRep 2 reDig, reCh ':', reRep 2 reDig, reCh ':', reRep 2 reDig,
         reOpt (mkCat (reCh '.') (rePlus reDig)), reOpt (reCh 'Z')]
/-- `(\d{4}-\d{2}-\d{2}\s+\d{2}:\d{2}:\d{2})` -/
def tsStd : RE :=
  reSeq [reRep 4 reDig, reCh '-', reRep 2 reDig, reCh '-', reRep 2 reDig, reWS1,
         reRep 2 reDig, reCh ':', reRep 2 reDig, reCh ':', reRep 2 reDig]
/-- `([A-Z][a-z]{2}\s+\d{1,2}\s+\d{2}:\d{2}:\d{2})` -/
def tsSyslog : RE :=
  reSeq [reC (fun c => 'A' ≤ c && c ≤ 'Z'), reRep 2 (reC (fun c => 'a' ≤ c && c ≤ 'z')),
         reWS1, mkCat reDig (reOpt reDig), reWS1,
         reRep 2 reDig, reCh ':', reRep 2 reDig, reCh ':', reRep 2 reDig]
/-- `\[(\d{10,13})\]` -/
def tsEpochBr : RE :=
  reSeq [reCh '[', reRep 10 reDig, reOpt reDig, reOpt reDig, reOpt reDig, reCh ']']

/-- `TIMESTAMP_PATTERNS`, in source order. -/
def timestampPatterns : List RE := [tsGlogFull, tsIso, tsStd, tsSyslog, tsEpochBr]

def sINFO : Str := strL "INFO"
def sWARN : Str := strL "WARN"
def sERROR : Str := strL "ERROR"
def sFATAL : Str := strL "FATAL"

/-- `SEVERITY_PATTERNS`: every pattern is `\bKEYWORD\b` with `re.IGNORECASE`;
stored as the lowercase keyword, in source order. -/
def severityKeywords : List (Str × List Str) :=
  [ (sFATAL, [strL "fatal", strL "critical", strL "panic"]),
    (sERROR, [strL "error", strL "err", strL "failed", strL "failure"]),
    (sWARN,  [strL "warn", strL "warning"]),
    (sINFO,  [strL "info"]) ]

/-- `\bkw\b` at the head of `s` (the boundary before the head is checked by
the caller); `kw` is lowercase, the input is matched case-insensitively. -/
def wordAt (kw : Str) (s : Str) : Bool :=
  startsCI kw s &&
  (match (s.drop kw.length).head? with
   | none => true
   | some c => !isWordC c)

def containsWordAux (kw : Str) : Option Char → Str → Bool
  | _, [] => false
  | prev, c :: cs =>
    ((match prev with | none => true | some p => !isWordC p) && wordAt kw (c :: cs))
    || containsWordAux kw (some c) cs

/-- `re.search` of `\bkw\b` with `re.IGNORECASE`. -/
def containsWord (kw line : Str) : Bool := containsWordAux kw none line

/-- `LogParser._detect_severity` -/
def detectSeverity (line : Str) : Str :=
  if reGlog8.mstart line then
    match line.head? with
    | some 'F' => sFATAL
    | some 'E' => sERROR
    | some 'W' => sWARN
    | _ => sINFO
  else
    match severityKeywords.find? (fun p => p.2.any (fun kw => containsWord kw line)) with
    | some p => p.1
    | none => sINFO

/-- `EVENT_TYPE_PATTERNS`, in source order, with literals lowercased
(the compiled patterns carry `re.IGNORECASE` and are searched against
`line.lower()`). -/
def eventTypePatterns : List (Str × List RE) :=
  [ (strL "FILE_NOT_FOUND",
      [wsL ["no", "such", "file"], reDS (reLit "file") (wsL ["not", "exist"]),
       wsL ["file", "not", "found"], wsL ["not", "a", "regular", "file"],
       wsL ["cannot", "open", "file"]]),
    (strL "CONNECTION_ERROR",
      [reDS (wsL ["unable", "to", "create"]) (reLit "connection"),
       wsL ["connection", "failed"], wsL ["connect", "error"],
       wsL ["connection", "refused"], wsL ["connection", "reset"],
       wsL ["failed", "to", "connect"], wsL ["transport", "error"],
       dsL ["rpc", "error"], wsL ["http", "connection", "error"]]),
    (strL "REPLICATION_FAIL",
      [wsL ["replication", "fail"], wsL ["sync", "error"],
       wsL ["replication", "error"], wsL ["failed", "to", "replicate"],
       wsL ["replication", "lag"]]),
    (strL "IO_ERROR",
      [wsL ["i/o", "error"], wsL ["disk", "read", "fail"], wsL ["write", "error"],
       wsL ["read", "error"], wsL ["failed", "to", "read"], wsL ["failed", "to", "write"]]),
    (strL "AUTH_FAIL",
      [dsL ["auth", "fail"], wsL ["access", "denied"], wsL ["permission", "denied"],
       reLit "unauthorized", wsL ["authentication", "failed"], dsL ["invalid", "credentials"]]),
    (strL "DISK_FULL",
      [wsL ["no", "space", "left"], wsL ["disk", "full"], wsL ["out", "of", "space"]]),
    (strL "OOM",
      [wsL ["out", "of", "memory"], wsL ["oom", "killer"],
       wsL ["memory", "allocation", "fail"]]),
    (strL "TIMEOUT",
      [reLit "timeout", wsL ["timed", "out"], wsL ["deadline", "exceeded"]]),
    (strL "SESSION_ERROR",
      [dsL ["session", "error"], wsL ["failed", "to", "read", "session"],
       wsL ["session", "expired"], wsL ["invalid", "session"]]),
    (strL "CONFIG_ERROR",
      [wsL ["configuration", "error"], wsL ["invalid", "config"],
       wsL ["missing", "config"], reDS (wsL ["thread", "name"]) (reLit "maximum")]),
    (strL "ZOOKEEPER_ERROR",
      [dsL ["zookeeper", "error"], dsL ["zk", "error"], dsL ["znode", "error"],
       dsL ["zeus", "error"]]),
    (strL "CORRUPTION",
      [wsL ["checksum", "mismatch"], wsL ["data", "corruption"], reLit "corrupt"]),
    (strL "QUOTA_EXCEEDED",
      [wsL ["quota", "exceeded"], wsL ["limit", "reached"], wsL ["quota", "limit"]]),
    (strL "SERVICE_DOWN",
      [wsL ["service", "unavailable"], wsL ["failed", "to", "start"],
       wsL ["service", "down"]]),
    (strL "OBJECT_ERROR",
      [reDS (wsL ["object", "lookup"]) (reLit "fail"),
       reW0 (reLit "invalid") (reLit "object"), reLit "kinvalidobject",
       reDS (reLit "object") (wsL ["not", "found"]), wsL ["empty", "value"],
       wsL ["object", "error"], dsL ["failed", "object"], dsL ["object", "empty"]]),
    (strL "METADATA_ERROR",
      [dsL ["metadata", "error"], dsL ["metadata", "fail"], wsL ["invalid", "metadata"],
       dsL ["metadata", "corrupt"], dsL ["metadata", "missing"]]),
    (strL "RPC_ERROR",
      [wsL ["rpc", "fail"], wsL ["rpc", "error"], dsL ["grpc", "error"],
       dsL ["grpc", "fail"]]),
    (strL "VALIDATION_ERROR",
      [wsL ["validation", "fail"], wsL ["invalid", "request"], wsL ["invalid", "param"],
       wsL ["validation", "error"], reLit "malformed"]),
    (strL "SSL_ERROR",
      [reLit "ssl_error", wsL ["ssl", "error"], wsL ["tls", "error"],
       wsL ["certificate", "error"], wsL ["handshake", "fail"]]),
    (strL "SEND_FAIL",
      [wsL ["failed", "to", "send"], dsL ["send", "fail"], wsL ["syscall", "fail"],
       reDS (wsL ["internal", "error"]) (reLit "syscall")]),
    (strL "SCAN_FAIL",
      [reW0 (reLit "scan") (reLit "fail"), reLit "curatorscanfailure",
       dsL ["scan", "error"]]),
    (strL "CLIENT_UNAVAILABLE",
      [wsL ["client", "is", "unavailable"], wsL ["client", "unavailable"],
       dsL ["notification", "unavailable"], dsL ["service", "unavailable"]]),
    (strL "BUCKET_ERROR",
      [reLit "kinvalidbucket", reW0 (reLit "invalid") (reLit "bucket"),
       reDS (reLit "bucket") (wsL ["lookup", "fail"]),
       reDS (wsL ["bucket", "info"]) (reLit "fail"),
       reDS (reLit "bucket") (wsL ["not", "found"]), dsL ["bucket", "error"]]),
    (strL "REGISTRATION_ERROR",
      [wsL ["registration", "fail"], wsL ["entity", "registration", "fail"],
       reLit "kdbupdateinprogress", wsL ["db", "update", "in", "progress"]]),
    (strL "IAM_ERROR",
      [reDS (wsL ["could", "not", "retrieve"]) (reLit "iam"), dsL ["iam", "fail"],
       dsL ["iam", "error"],
       reDS (wsL ["could", "not", "retrieve"]) (wsL ["user", "info"]),
       reDS (wsL ["could", "not", "retrieve"]) (reLit "keys")]),
    (strL "CONFIG_NOT_FOUND",
      [reDS (reLit "config") (wsL ["not", "found"]), wsL ["metadata", "not", "found"],
       reDS (wsL ["feature", "config"]) (wsL ["not", "found"]),
       wsL ["not", "found", "for"]]),
    (strL "S3_OP_ERROR",
      [reSeq [reLit "s3_base_op", reDotStar, reCh ':', rePlus reDig, reCh ']'],
       dsL ["s3", "op", "error"], dsL ["request_id=", "op_id=", "error"]]),
    (strL "NOT_FOUND",
      [reW0 (reLit "non") (reLit "exist"), reW0 (reLit "non") (reLit "existent"),
       wsL ["no", "replication", "configuration"], wsL ["no", "entities", "found"],
       wsL ["missing", "uuid"], reDS (reLit "website") (reW0 (reLit "non") (reLit "exist")),
       reDS (reLit "cors") (reW0 (reLit "non") (reLit "exist"))]),
    (strL "PARSE_ERROR",
      [dsL ["parsing", "fail"], wsL ["parse", "error"], wsL ["failed", "to", "parse"]]),
    (strL "PUBLISH_ERROR",
      [wsL ["failed", "to", "publish"], dsL ["publish", "fail"], dsL ["publish", "error"]]),
    (strL "USER_ERROR",
      [wsL ["failed", "to", "get", "user"], reDS (reLit "user") (wsL ["not", "found"]),
       dsL ["missing", "user"]]),
    (strL "PIPE_ERROR",
      [wsL ["broken", "pipe"], wsL ["error", "while", "writing", "to", "socket"]]),
    (strL "PROTOCOL_ERROR",
      [reDS (wsL ["only", "https"]) (reLit "allowed"), wsL ["protocol", "error"],
       wsL ["invalid", "protocol"]]),
    (strL "NOT_INITIALIZED",
      [wsL ["not", "initialized"], wsL ["not", "been", "populated"],
       wsL ["not", "handled", "yet"], reDS (reLit "instance") (wsL ["not", "initialized"])]),
    (strL "STATE_NOT_FOUND",
      [wsL ["state", "not", "found"], reDS (reLit "no") (wsL ["member", "state", "found"]),
       dsL ["state", "missing"]]),
    (strL "DNS_ERROR",
      [wsL ["getaddrinfo", "fail"], reDS (dsL ["name", "service"]) (wsL ["not", "known"]),
       dsL ["dns", "fail"]]),
    (strL "COMMAND_ERROR",
      [wsL ["exited", "with", "status"], dsL ["command", "fail"], wsL ["exit", "code"]]),
    (strL "DISK_ERROR",
      [wsL ["failed", "to", "check", "disk"], dsL ["disk", "error"], dsL ["disk", "fail"]]),
    (strL "INVALID_NAME",
      [wsL ["bucket", "name", "can", "only", "contain"], dsL ["invalid", "name"],
       dsL ["illegal", "name"]]),
    (strL "NOT_READY",
      [reDS (wsL ["not", "yet"]) (reLit "ready"),
       wsL ["not", "in", "a", "running", "state"], wsL ["not", "ready"]]),
    (strL "RAFT_ERROR",
      [wsL ["failed", "to", "get", "raft"], dsL ["raft", "error"], dsL ["raft", "fail"],
       wsL ["illegal", "state"]]) ]

/-- `LogParser._detect_event_type`: first category (in table order) any of
whose patterns is found in the lowercased line; `none` if no category
matches. -/
def detectEventType (line : Str) : Option Str :=
  let low := lowerS line
  (eventTypePatterns.find? (fun p => p.2.any (fun r => r.found low))).map (fun p => p.1)

/-- `LogParser._is_new_log_entry` -/
def isNewLogEntry (line : Str) : Bool :=
  reGlog8.mstart line
  || timestampPatterns.any (fun r => r.mstart line)
  || reGlog4.mstart line
  || reBrDate.mstart line
  || reDateStart.mstart line

/-! ### Calendar arithmetic

`datetime(y, mo, d, h, mi, s)` validates its fields (raising `ValueError`
otherwise) and `.timestamp()` on the resulting naive datetime interprets it
in the host's local timezone: epoch = (epoch of the civil time read as UTC)
minus the host's UTC offset `tz` (seconds east).  `.timestamp()` is modelled
as total (no platform-specific pre-1970 failures). -/

def isLeap (y : Nat) : Bool := y % 4 = 0 && (y % 100 ≠ 0 || y % 400 = 0)

def daysInMonth (y m : Nat) : Nat :=
  if m = 2 then (if isLeap y then 29 else 28)
  else if m = 4 || m = 6 || m = 9 || m = 11 then 30
  else 31

def validCivil (y mo d h mi s : Nat) : Bool :=
  1 ≤ y && y ≤ 9999 && 1 ≤ mo && mo ≤ 12 && 1 ≤ d && d ≤ daysInMonth y mo &&
  h ≤ 23 && mi ≤ 59 && s ≤ 59

/-- Days from 1970-01-01 to the given civil date (Gregorian, proleptic).
All intermediate divisions have nonnegative operands for `y ≥ 1`. -/
def daysFromCivil (y m d : Nat) : Int :=
  let yAdj : Int := (y : Int) - (if m ≤ 2 then 1 else 0)
  let era : Int := yAdj / 400
  let yoe : Int := yAdj - era * 400
  let mp : Int := ((m : Int) + 9) % 12
  let doy : Int := (153 * mp + 2) / 5 + (d : Int) - 1
  let doe : Int := yoe * 365 + yoe / 4 - yoe / 100 + doy
  era * 146097 + doe - 719468

/-- Epoch seconds of a civil datetime read as UTC. -/
def epochOfCivil (y mo d h mi s : Nat) : Int :=
  daysFromCivil y mo d * 86400 + (h : Int) * 3600 + (mi : Int) * 60 + (s : Int)

abbrev Civil := Nat × Nat × Nat × Nat × Nat × Nat

def validCivil6 : Civil → Bool
  | (y, mo, d, h, mi, s) => validCivil y mo d h mi s

def epochOfCivil6 : Civil → Int
  | (y, mo, d, h, mi, s) => epochOfCivil y mo d h mi s

/-! ### Capture-group scanners for `_extract_timestamp` and the
node/bucket extractors (the only regexes whose captured text is used). -/

/-- Exactly `n` leading digits; returns them and the rest. -/
def takeDigits : Nat → Str → Option (Str × Str)
  | 0, s => some ([], s)
  | _ + 1, [] => none
  | n + 1, c :: cs =>
    if isDigitC c then (takeDigits n cs).map (fun p => (c :: p.1, p.2)) else none

def natOfDigits (s : Str) : Nat := s.foldl (fun a c => a * 10 + (c.toNat - 48)) 0

def expectCh (c : Char) : Str → Option Str
  | x :: xs => if x = c then some xs else none
  | [] => none

/-- `\s+`: at least one whitespace char, consumed greedily. -/
def ws1Drop : Str → Option Str
  | c :: cs => if isPySpace c then some (cs.dropWhile isPySpace) else none
  | [] => none

/-- `re.match(r'^[IWEF](\d{4})(\d{2})(\d{2})\s+(\d{2}):(\d{2}):(\d{2})', line)`:
the anchored glog parse at the top of `_extract_timestamp`. -/
def glogCivil (line : Str) : Option Civil :=
  match line with
  | c :: rest =>
      if isIWEF c then do
        let (y4, r1) ← takeDigits 4 rest
        let (m2, r2) ← takeDigits 2 r1
        let (d2, r3) ← takeDigits 2 r2
        let r4 ← ws1Drop r3
        let (h2, r5) ← takeDigits 2 r4
        let r6 ← expectCh ':' r5
        let (mi2, r7) ← takeDigits 2 r6
        let r8 ← expectCh ':' r7
        let (s2, _) ← takeDigits 2 r8
        pure (natOfDigits y4, natOfDigits m2, natOfDigits d2,
              natOfDigits h2, natOfDigits mi2, natOfDigits s2)
      else none
  | [] => none

/-- Pattern `[IWEF](\d{8})\s+(\d{2}:\d{2}:\d{2})` at this position;
returns group(1), the 8 digits. -/
def tsP1At (s : Str) : Option Str :=
  match s with
  | c :: rest =>
      if isIWEF c then do
        let (d8, r1) ← takeDigits 8 rest
        let r2 ← ws1Drop r1
        let (_, r3) ← takeDigits 2 r2
        let r4 ← expectCh ':' r3
        let (_, r5) ← takeDigits 2 r4
        let r6 ← expectCh ':' r5
        let (_, _) ← takeDigits 2 r6
        pure d8
      else none
  | [] => none

/-- ISO pattern `\d{4}-\d{2}-\d{2}T\d{2}:\d{2}:\d{2}(?:\.\d+)?Z?` at this
position; returns the civil fields and whether a trailing `Z` is part of
the match.  Fractional seconds of any length are accepted by
`datetime.fromisoformat` (Python ≥ 3.11 semantics) and truncated by
`int(...)`. -/
def tsP2At (s : Str) : Option (Civil × Bool) := do
  let (y4, r1) ← takeDigits 4 s
  let r2 ← expectCh '-' r1
  let (mo2, r3) ← takeDigits 2 r2
  let r4 ← expectCh '-' r3
  let (d2, r5) ← takeDigits 2 r4
  let r6 ← expectCh 'T' r5
  let (h2, r7) ← takeDigits 2 r6
  let r8 ← expectCh ':' r7
  let (mi2, r9) ← takeDigits 2 r8
  let r10 ← expectCh ':' r9
  let (s2, r11) ← takeDigits 2 r10
  let r12 :=
    match r11 with
    | '.' :: t => if (t.headD ' ').isDigit then t.dropWhile isDigitC else r11
    | _ => r11
  let z := decide (r12.head? = some 'Z')
  pure ((natOfDigits y4, natOfDigits mo2, natOfDigits d2,
         natOfDigits h2, natOfDigits mi2, natOfDigits s2), z)

/-- Pattern `\d{4}-\d{2}-\d{2}\s+\d{2}:\d{2}:\d{2}` at this position;
returns the civil fields (later re-parsed with
`strptime('%Y-%m-%d %H:%M:%S')`, whose literal space also matches a
whitespace run). -/
def tsP3At (s : Str) : Option Civil := do
  let (y4, r1) ← takeDigits 4 s
  let r2 ← expectCh '-' r1
  let (mo2, r3) ← takeDigits 2 r2
  let r4 ← expectCh '-' r3
  let (d2, r5) ← takeDigits 2 r4
  let r6 ← ws1Drop r5
  let (h2, r7) ← takeDigits 2 r6
  let r8 ← expectCh ':' r7
  let (mi2, r9) ← takeDigits 2 r8
  let r10 ← expectCh ':' r9
  let (s2, _) ← takeDigits 2 r10
  pure (natOfDigits y4, natOfDigits mo2, natOfDigits d2,
        natOfDigits h2, natOfDigits mi2, natOfDigits s2)

/-- Pattern `\[(\d{10,13})\]` at this position; returns group(1).
A digit run of more than 13 digits cannot match (the bracket must follow
at most 13 consumed digits, all further run characters being digits). -/
def tsP5At (s : Str) : Option Str :=
  match s with
  | '[' :: rest =>
      let run := rest.takeWhile isDigitC
      if 10 ≤ run.length ∧ run.length ≤ 13 ∧ (rest.drop run.length).head? = some ']'
      then some run else none
  | _ => none

/-- The pattern loop of `_extract_timestamp`.  The syslog pattern
(`[A-Z][a-z]{2}\s+\d{1,2}\s+\d{2}:\d{2}:\d{2}`) is omitted: its captured
text is neither all-digits nor contains `T` and never parses with
`strptime('%Y-%m-%d %H:%M:%S')`, so that iteration always ends in
`continue`. -/
def extractTimestampPats (tz now : Int) (line : Str) : Int :=
  match findLeftmost tsP1At line with
  | some d8 => (natOfDigits d8 : Int)
  | none =>
    let r2 : Option Int :=
      (findLeftmost tsP2At line).bind fun p =>
        if validCivil6 p.1 then
          some (if p.2 then epochOfCivil6 p.1 else epochOfCivil6 p.1 - tz)
        else none
    match r2 with
    | some v => v
    | none =>
      let r3 : Option Int :=
        (findLeftmost tsP3At line).bind fun civ =>
          if validCivil6 civ then some (epochOfCivil6 civ - tz) else none
      match r3 with
      | some v => v
      | none =>
        match findLeftmost tsP5At line with
        | some run =>
            let t := natOfDigits run
            ((if t > 10000000000 then t / 1000 else t : Nat) : Int)
        | none => now

/-- `LogParser._extract_timestamp`.  `tz` is the host's UTC offset in
seconds (east positive); `now` is `int(datetime.now().timestamp())`, the
wall-clock default. -/
def extractTimestamp (tz now : Int) (line : Str) : Int :=
  match glogCivil line with
  | some civ =>
      if validCivil6 civ then epochOfCivil6 civ - tz
      else extractTimestampPats tz now line
  | none => extractTimestampPats tz now line

/-- Pattern `lit\d+` at this position, case-insensitively (`lit` is the
lowercase literal); returns the original-case matched text.  When
`bounded` (the line-content patterns, which are wrapped in `\b...\b`),
the character after the digit run must not be a word character (no
shorter digit run can satisfy the trailing `\b`, the next character then
being a digit). -/
def litDigitsAt (lit : Str) (bounded : Bool) (s : Str) : Option Str :=
  if startsCI lit s then
    let rest := s.drop lit.length
    let ds := rest.takeWhile isDigitC
    if ds = [] then none
    else
      let after := (rest.drop ds.length).head?
      if bounded then
        match after with
        | some c => if isWordC c then none else some (s.take lit.length ++ ds)
        | none => some (s.take lit.length ++ ds)
      else some (s.take lit.length ++ ds)
  else none

/-- Leftmost `\b lit\d+\b` search (tracks the previous character for the
leading boundary). -/
def scanBounded (lit : Str) : Option Char → Str → Option Str
  | _, [] => none
  | prev, c :: cs =>
    ((if (match prev with | none => true | some p => !isWordC p)
      then litDigitsAt lit true (c :: cs) else none)).orElse
      fun _ => scanBounded lit (some c) cs

/-- The path-based node-name patterns of `_extract_node_name`
(searched without boundaries), in source order. -/
def nodePathPats : List Str :=
  [strL "object-controller-", strL "poseidon-atlas-", strL "metadata-service-",
   strL "ms-server-", strL "zk-"]

/-- The line-content node-name patterns (each wrapped in `\b...\b`),
in source order. -/
def nodeLinePats : List Str :=
  [strL "object-controller-", strL "poseidon-atlas-", strL "metadata-service-",
   strL "ms-server-", strL "zk-", strL "node-", strL "atlas-", strL "ms-",
   strL "oc-"]

/-- `LogParser._extract_node_name` -/
def extractNodeName (line filePath : Str) : Option Str :=
  match nodePathPats.findSome? (fun lit => findLeftmost (litDigitsAt lit false) filePath) with
  | some m => some m
  | none => nodeLinePats.findSome? (fun lit => scanBounded lit none line)

def isBucketChar (c : Char) : Bool := c.isAlphanum || c = '_' || c = '-'

def isQuoteCh (c : Char) : Bool := c = '"' || c = Char.ofNat 39

/-- `key[=:]\s*["\']?([a-zA-Z0-9_-]+)["\']?` at this position (`key`
lowercase, matched case-insensitively); returns group(1).  If an opening
quote is present it must be followed by a group character, otherwise no
alternative at this position can match. -/
def bucketKeyAt (key : Str) (s : Str) : Option Str :=
  if startsCI key s then
    match s.drop key.length with
    | c :: r2 =>
        if c = '=' || c = ':' then
          let r3 := r2.dropWhile isPySpace
          let r4 :=
            match r3 with
            | q :: t => if isQuoteCh q && (t.headD ' ' |> isBucketChar) then t else r3
            | [] => r3
          let run := r4.takeWhile isBucketChar
          if run = [] then none else some run
        else none
    | [] => none
  else none

/-- `"bucket"\s*:\s*"([^"]+)"` at this position. -/
def bucketJsonAt (s : Str) : Option Str := do
  let r1 ← expectCh '"' s
  if startsCI (strL "bucket") r1 then do
    let r2 ← expectCh '"' (r1.drop 6)
    let r3 := r2.dropWhile isPySpace
    let r4 ← expectCh ':' r3
    let r5 := r4.dropWhile isPySpace
    let r6 ← expectCh '"' r5
    let run := r6.takeWhile (· ≠ '"')
    if run = [] then none
    else match (r6.drop run.length).head? with
      | some _ => pure run   -- the char after the run is necessarily '"'
      | none => none
  else none

/-- `Bucket:\s*([a-zA-Z0-9_-]+)` at this position (case-insensitive). -/
def bucketColonAt (s : Str) : Option Str :=
  if startsCI (strL "bucket") s then
    match s.drop 6 with
    | ':' :: r2 =>
        let run := (r2.dropWhile isPySpace).takeWhile isBucketChar
        if run = [] then none else some run
    | _ => none
  else none

/-- `bucket\s+([a-zA-Z0-9_-]+)` at this position (case-insensitive). -/
def bucketWsAt (s : Str) : Option Str :=
  if startsCI (strL "bucket") s then do
    let r2 ← ws1Drop (s.drop 6)
    let run := r2.takeWhile isBucketChar
    if run = [] then none else pure run
  else none

/-- `LogParser._extract_bucket_name`: the six patterns in source order,
each searched leftmost, first matching pattern wins. -/
def extractBucketName (line : Str) : Option Str :=
  [bucketKeyAt (strL "bucket"), bucketKeyAt (strL "bucket_name"),
   bucketKeyAt (strL "bucket_id"), bucketJsonAt, bucketColonAt,
   bucketWsAt].findSome? (fun f => findLeftmost f line)

/-! ### LogEvent and the parsing pass -/

/-- `LogEvent` (log_parser.py): a parsed log event, metadata only. -/
structure LogEvent where
  timestamp : Int
  pod : Str
  node_name : Option Str := none
  object_store_uuid : Option Str := none
  object_store_name : Option Str := none
  bucket_name : Option Str := none
  severity : Str := sINFO
  event_type : Option Str := none
  message : Str := []
  stack_trace : Option Str := none
  raw_log_file : Str := []
  raw_file_path : Str := []
  raw_line_number : Nat := 0
deriving DecidableEq, Repr

/-- Constructor arguments of `LogParser` plus the ambient quantities the
Python code reads from the environment: the host UTC offset `tz` (through
naive `datetime.timestamp()`) and the wall clock `now` (the fallback
timestamp). -/
structure ParserCtx where
  maxMessageLength : Nat := 500
  maxStackTraceLength : Nat := 1000
  tz : Int := 0
  now : Int := 0

/-- Python `'\n'.join(ls)`. -/
def joinNL : List Str → Str
  | [] => []
  | [s] => s
  | s :: rest => s ++ '\n' :: joinNL rest

/-- Python `s.endswith(t)`. -/
def endsWith (t s : Str) : Bool := decide (s.drop (s.length - t.length) = t)

/-- The event built at a new-entry line (the `LogEvent(...)` call in
`_parse_log_content`; `object_store_uuid`/`object_store_name` are not
passed there and `stack_trace` is attached only when the event is
flushed). -/
def mkEvent (ctx : ParserCtx) (pod filePath s3url : Str) (line : Str)
    (severity : Str) (lineNum : Nat) : LogEvent :=
  { timestamp := extractTimestamp ctx.tz ctx.now line
    pod := pod
    node_name := extractNodeName line filePath
    bucket_name := extractBucketName line
    severity := severity
    event_type := detectEventType line
    message := line.take ctx.maxMessageLength
    raw_log_file := s3url
    raw_file_path := filePath
    raw_line_number := lineNum }

/-- Flushing the current event: yielded only if its severity is in the
filter; the accumulated continuation lines (if any) become the
stack trace, truncated to `max_stack_trace_length`. -/
def flushEvent (ctx : ParserCtx) (filter : List Str) (cur : Option LogEvent)
    (buf : List Str) : List LogEvent :=
  match cur with
  | none => []
  | some ev =>
      if ev.severity ∈ filter then
        [if buf = [] then ev
         else { ev with stack_trace := some ((joinNL buf).take ctx.maxStackTraceLength) }]
      else []

/-- The line loop of `_parse_log_content`: `lineNum` is the 1-based index
of the head of `lines` in the original split, `cur` the in-flight event,
`buf` the continuation-line buffer (appended only while it holds fewer
than 50 lines). -/
def parseLines (ctx : ParserCtx) (pod filePath s3url : Str) (filter : List Str) :
    List Str → Nat → Option LogEvent → List Str → List LogEvent
  | [], _, cur, buf => flushEvent ctx filter cur buf
  | l :: rest, n, cur, buf =>
      let line := pyStrip l
      if line = [] then parseLines ctx pod filePath s3url filter rest (n + 1) cur buf
      else
        let severity := detectSeverity line
        if isNewLogEntry line then
          flushEvent ctx filter cur buf ++
            (if severity ∈ filter then
              parseLines ctx pod filePath s3url filter rest (n + 1)
                (some (mkEvent ctx pod filePath s3url line severity n)) []
            else
              parseLines ctx pod filePath s3url filter rest (n + 1) none [])
        else
          if cur.isSome ∧ buf.length < 50 then
            parseLines ctx pod filePath s3url filter rest (n + 1) cur (buf ++ [line])
          else
            parseLines ctx pod filePath s3url filter rest (n + 1) cur buf

/-- `LogParser._parse_log_content` -/
def parseLogContent (ctx : ParserCtx) (content : Str) (pod filePath s3url : Str)
    (filter : List Str) : List LogEvent :=
  parseLines ctx pod filePath s3url filter (splitNL content) 1 none []

/-- `LOG_FILE_PATTERNS`, in source order, entries lowercased (they are
compared lowercased against the lowercased filename). -/
def logFilePatterns : List (Str × List Str) :=
  [ (strL "OC",
      [strL "oc.log", strL "oc.error", strL "oc.fatal", strL "oc.warning",
       strL "object_controller.log", strL "object_store.", strL "object-controller",
       strL "poseidon", strL "hermes", strL "federation_controller"]),
    (strL "MS",
      [strL "ms.log", strL "ms.error", strL "ms.fatal",
       strL "metadata_service.log", strL "metadata-service", strL "ms-"]),
    (strL "Atlas",
      [strL "atlas.log", strL "atlas.error", strL "atlas.fatal", strL "atlas-"]),
    (strL "Curator",
      [strL "curator.log", strL "curator.error", strL "curator.fatal"]),
    (strL "Stargate",
      [strL "stargate.log", strL "stargate.error", strL "stargate.fatal"]),
    (strL "Zookeeper", [strL "zookeeper", strL "zk-"]),
    (strL "Buckets", [strL "bucket", strL "bucketstools"]) ]

/-- The directory-path component inference (the elif chain in
`_identify_log_file`). -/
def componentFromPath (fl : Str) : Option Str :=
  if isSub (strL "/atlas/") fl then some (strL "Atlas")
  else if isSub (strL "/ms/") fl then some (strL "MS")
  else if isSub (strL "/oc/") fl then some (strL "OC")
  else if isSub (strL "/zookeeper/") fl then some (strL "Zookeeper")
  else if isSub (strL "/bucketstools/") fl then some (strL "Buckets")
  else if isSub (strL "/objectsbrowser/") fl then some (strL "ObjectsBrowser")
  else none

/-- `LogParser._identify_log_file`: `none` means the member is skipped. -/
def identifyLogFile (filepath : Str) : Option (Str × Str) :=
  let filename := lowerS (basename filepath)
  let fl := lowerS filepath
  let hasErrSev := isSub (strL ".error.") filename || isSub (strL ".fatal.") filename
  let comp := componentFromPath fl
  if comp.isSome && hasErrSev then some (comp.getD [], strL "error_file")
  else if hasErrSev then
    match logFilePatterns.findSome?
        (fun p => (p.2.find? (fun pat => isSub pat filename)).map (fun pat => (p.1, pat))) with
    | some pp => some pp
    | none => some (strL "Unknown", strL "error_file")
  else if endsWith (strL ".error") filename || endsWith (strL ".fatal") filename then
    some (comp.getD (strL "Unknown"), strL "severity_file")
  else if endsWith (strL ".out") filename && comp.isSome then
    some (comp.getD [], strL "out_file")
  else none

/-- One archive member: its in-archive path, whether it is a regular file,
and its decoded text content.  (Per-member gzip decompression and the
permissive utf-8/latin-1 decode of `parse_archive` never fail and are
abstracted into `text`.) -/
structure ArchiveMember where
  name : Str
  isFile : Bool
  text : Str
deriving DecidableEq, Repr

/-- The severity filter normalisation at the top of `parse_archive`:
default `['ERROR', 'FATAL']`, then `s.upper()` on every entry. -/
def normFilter (filterOpt : Option (List Str)) : List Str :=
  (filterOpt.getD [sERROR, sFATAL]).map upperS

/-- `LogParser.parse_archive`: iterate the members, skip non-files and
unrecognised names, and concatenate the per-member event streams (the
generator is modelled as the list of yielded events). -/
def parseArchive (ctx : ParserCtx) (members : List ArchiveMember) (s3url : Str)
    (filterOpt : Option (List Str)) : List LogEvent :=
  let filter := normFilter filterOpt
  members.flatMap fun m =>
    if !m.isFile then []
    else
      match identifyLogFile m.name with
      | none => []
      | some (pod, _) => parseLogContent ctx m.text pod m.name s3url filter

/-! ### LogProcessor (log_processor.py)

`process_upload` is modelled over an explicit behaviour of its three
fallible collaborators: the S3 download, the (lazy) parse, and the
per-event insert.  `execute_sql` converts every transport failure into an
error dictionary and never raises, so the status updates themselves are
modelled as always-emitted write operations; the trace of
`update_upload_status` calls is recorded. -/

/-- The `stats` dictionary initialised at the top of `process_upload`
(`total_files`/`total_lines` are initialised but never incremented
there). -/
structure ProcStats where
  total_files : Nat := 0
  total_lines : Nat := 0
  errors_found : Nat := 0
  warnings_found : Nat := 0
  fatals_found : Nat := 0
  events_stored : Nat := 0
deriving DecidableEq, Repr

/-- One `update_upload_status` call: the status string, the optional
`stats` dictionary, and the optional `error_message`. -/
structure StatusUpdate where
  status : Str
  stats : Option ProcStats
  error_message : Option Str
deriving DecidableEq, Repr

/-- The environment of one `process_upload` invocation:
`downloadError = some m` means `s3.download_file` raises (`ClientError`
with text `m`); the parser yields `parsedEvents` and then raises with
text `m` if `parseError = some m` (archive-open failures are the case
`parsedEvents = []`); `storeOk i` is the boolean result of the `i`-th
`store_log_event` call (0-based). -/
structure ProcBehaviour where
  downloadError : Option Str
  parsedEvents : List LogEvent
  parseError : Option Str
  storeOk : Nat → Bool

def sPENDING : Str := strL "PENDING"
def sPROCESSING : Str := strL "PROCESSING"
def sCOMPLETED : Str := strL "COMPLETED"
def sFAILED : Str := strL "FAILED"

/-- The per-event body of the processing loop: `events_stored` and the
per-severity counter are bumped only when `store_log_event` returned
True. -/
def bumpStats (st : ProcStats) (sev : Str) : ProcStats :=
  let st := { st with events_stored := st.events_stored + 1 }
  if sev = sERROR then { st with errors_found := st.errors_found + 1 }
  else if sev = sWARN then { st with warnings_found := st.warnings_found + 1 }
  else if sev = sFATAL then { st with fatals_found := st.fatals_found + 1 }
  else st

/-- Folding the store loop over a list of events, `i` the index of the
next store call. -/
def runStores (storeOk : Nat → Bool) : List LogEvent → Nat → ProcStats → ProcStats
  | [], _, st => st
  | e :: rest, i, st =>
      runStores storeOk rest (i + 1) (if storeOk i then bumpStats st e.severity else st)

/-- The stats accumulated after the first `k` parsed events have been
offered to `store_log_event`. -/
def statsAfter (b : ProcBehaviour) (k : Nat) : ProcStats :=
  runStores b.storeOk (b.parsedEvents.take k) 0 {}

/-- Result of `process_upload`: the emitted status updates in order, and
the returned dictionary (`Except.error m` is the `{'error': m}` return of
the exception handlers). -/
structure ProcResult where
  updates : List StatusUpdate
  result : Except Str ProcStats
deriving Repr

/-- `LogProcessor.process_upload`.  The temp-file cleanup touches no
observable state modelled here. -/
def processUpload (b : ProcBehaviour) : ProcResult :=
  let u1 : StatusUpdate := ⟨sPROCESSING, none, none⟩
  match b.downloadError with
  | some m =>
      let msg := strL "S3 error: " ++ m
      ⟨[u1, ⟨sFAILED, none, some msg⟩], .error msg⟩
  | none =>
      let st := runStores b.storeOk b.parsedEvents 0 {}
      match b.parseError with
      | some m =>
          let msg := strL "Processing error: " ++ m
          ⟨[u1, ⟨sFAILED, none, some msg⟩], .error msg⟩
      | none => ⟨[u1, ⟨sCOMPLETED, some st, none⟩], .ok st⟩

def isTerminal (u : StatusUpdate) : Bool :=
  u.status = sCOMPLETED || u.status = sFAILED

/-! ### LogCollector (log_collector.py) -/

/-- `_strip_mspctl_header`'s `data.find(b'\x1f\x8b')`: index of the first
occurrence of the gzip magic pair, on the file's bytes. -/
def findGzip : List Nat → Option Nat
  | 31 :: 139 :: _ => some 0
  | _ :: rest => (findGzip rest).map (· + 1)
  | [] => none

/-- `LogCollector._strip_mspctl_header`, viewed as the transformation of
the file's bytes: when no gzip signature exists the function returns
False and leaves the file unchanged; at offset 0 it returns True without
rewriting; at a positive offset it rewrites the file to the suffix
starting at the signature. -/
def stripMspctlHeader (data : List Nat) : List Nat :=
  match findGzip data with
  | none => data
  | some 0 => data
  | some k => data.drop k

/-- The steps of `collect_logs_from_cluster` that decide between failure
(`None`) and success, as observed from outside: each remote/transport
check is a boolean, the downloaded file is a byte list. -/
structure CollectEnv where
  hasSshpass : Bool
  prismIpSet : Bool
  /-- the string `"nova_logs_"` appears in the `ls` output on the node -/
  nodeArchiveListed : Bool
  /-- rc 0 and the remote path in the `ls` output on the management host -/
  prismArchiveListed : Bool
  /-- the ssh+cat download returned 0 and wrote a non-empty file -/
  scpOk : Bool
  /-- bytes of the downloaded local archive -/
  fileBytes : List Nat

/-- `LogCollector.collect_logs_from_cluster`, reduced to its
success/failure decision and the final bytes of the local archive.  The
MSP-name lookup cannot fail the collection (it falls back to the object
store name), cleanup commands ignore their results, and the return value
of `_strip_mspctl_header` is ignored by the source. -/
def collectLogsFromCluster (e : CollectEnv) : Option (List Nat) :=
  if !e.hasSshpass then none
  else if !e.prismIpSet then none
  else if !e.nodeArchiveListed then none
  else if !e.prismArchiveListed then none
  else if !(e.scpOk && decide (0 < e.fileBytes.length)) then none
  else if e.fileBytes.length < 100 then none
  else some (stripMspctlHeader e.fileBytes)

/-- Per-cluster dedup state: the in-process `_last_collection` entry for
this cluster (epoch seconds) and the `uploaded_at` values of the
cluster's `log_uploads` rows. -/
structure ClusterState where
  cache : Option Nat
  db : List Nat
deriving DecidableEq, Repr

/-- `datetime.now().replace(minute=0, second=0, microsecond=0)` as epoch
seconds. -/
def hourEpoch (t : Nat) : Nat := t - t % 3600

inductive ClusterStatus where
  | skippedMem | skippedDB | failed | success
deriving DecidableEq, Repr

structure ClusterOutcome where
  status : ClusterStatus
  /-- `trigger_processing` returned an upload id: the hand-off succeeded -/
  handoff : Bool
  state : ClusterState
deriving Repr

/-- Environment of one execution of the per-cluster loop body: all clock
reads of the iteration (which the same-hour-bucket hypotheses place inside
one bucket) are modelled as the single instant `now`. -/
structure ClusterEnv where
  now : Nat
  /-- `collect_logs_from_cluster` returned an archive path -/
  collectOk : Bool
  /-- `upload_to_s3` returned a key/url -/
  uploadOk : Bool
  /-- the INSERT of `create_upload_record` succeeded (row becomes visible) -/
  insertOk : Bool
  /-- the follow-up `SELECT MAX(upload_id)` returned an id -/
  idFetchOk : Bool

/-- The in-memory check `last_collection and last_collection >= current_hour`. -/
def memHitB (s : ClusterState) (e : ClusterEnv) : Bool :=
  match s.cache with
  | some t => decide (hourEpoch e.now ≤ t)
  | none => false

/-- The DB check: a `log_uploads` row for this cluster with
`uploaded_at >= current_hour_epoch`. -/
def dbHitB (s : ClusterState) (e : ClusterEnv) : Bool :=
  s.db.any (fun t => decide (hourEpoch e.now ≤ t))

/-- The per-cluster body of `collect_from_all_clusters`
(log_collector.py lines 502-586): memory-cache check, DB check (which
repopulates the cache), collection, upload, hand-off; on the success path
the cache is updated after `trigger_processing` regardless of its
result. -/
def processCluster (s : ClusterState) (e : ClusterEnv) : ClusterOutcome :=
  if memHitB s e then ⟨.skippedMem, false, s⟩
  else if dbHitB s e then
    ⟨.skippedDB, false, { s with cache := some e.now }⟩
  else if !e.collectOk then ⟨.failed, false, s⟩
  else if !e.uploadOk then ⟨.failed, false, s⟩
  else
    let db' := if e.insertOk then s.db ++ [e.now] else s.db
    ⟨.success, e.insertOk && e.idFetchOk, ⟨some e.now, db'⟩⟩

/-- One `collect_from_all_clusters` invocation over its cluster list,
restricted to a single cluster's dedup state (distinct clusters touch
disjoint cache keys and DB rows): the outcomes of the loop iterations
that concern this cluster, threaded through the state. -/
def collectInvocation (s : ClusterState) : List ClusterEnv → (List ClusterOutcome × ClusterState)
  | [] => ([], s)
  | e :: rest =>
      let o := processCluster s e
      let (os, s') := collectInvocation o.state rest
      (o :: os, s')

/-! ## Claim-support definitions -/

/-- A raw line of the split that `_parse_log_content` turns into a new
event: nonempty after stripping, classified as a new entry start by
`_is_new_log_entry`, with detected severity in the filter. -/
def qualifies (filter : List Str) (l : Str) : Bool :=
  let line := pyStrip l
  !decide (line = []) && isNewLogEntry line && decide (detectSeverity line ∈ filter)

/-- The 1-based indices (starting at `n` for the head) of the qualifying
lines. -/
def qualIdx (filter : List Str) : List Str → Nat → List Nat
  | [], _ => []
  | l :: rest, n =>
      if qualifies filter l then n :: qualIdx filter rest (n + 1)
      else qualIdx filter rest (n + 1)

/-- Number of qualifying lines of a member's content. -/
def countQual (filter : List Str) (content : Str) : Nat :=
  ((splitNL content).filter (qualifies filter)).length

/-- The line numbers contributed by the in-flight event at a flush. -/
def curNums : Option LogEvent → List Nat
  | some e => [e.raw_line_number]
  | none => []

def sevSum (st : ProcStats) : Nat :=
  st.errors_found + st.warnings_found + st.fatals_found

/-! ## Helper lemmas -/

theorem sevSum_bump (st : ProcStats) (sev : Str) (h : sevSum st ≤ st.events_stored) :
    sevSum (bumpStats st sev) ≤ (bumpStats st sev).events_stored := by
  unfold bumpStats sevSum at *
  repeat' split
  all_goals dsimp only
  all_goals omega

theorem runStores_sevSum (f : Nat → Bool) :
    ∀ (evs : List LogEvent) (i : Nat) (st : ProcStats),
      sevSum st ≤ st.events_stored →
      sevSum (runStores f evs i st) ≤ (runStores f evs i st).events_stored := by
  intro evs
  induction evs with
  | nil => intro i st h; simpa [runStores] using h
  | cons e rest ih =>
      intro i st h
      simp only [runStores]
      apply ih
      by_cases hs : f i
      · simpa [hs] using sevSum_bump st e.severity h
      · simpa [hs] using h

theorem runStores_append (f : Nat → Bool) :
    ∀ (xs ys : List LogEvent) (i : Nat) (st : ProcStats),
      runStores f (xs ++ ys) i st = runStores f ys (i + xs.length) (runStores f xs i st) := by
  intro xs
  induction xs with
  | nil => intro ys i st; simp [runStores]
  | cons x rest ih =>
      intro ys i st
      rw [List.cons_append, runStores, ih, runStores, List.length_cons]
      congr 1
      omega

theorem statsAfter_succ_of_storeFail (b : ProcBehaviour) (k : Nat)
    (h : b.storeOk k = false) : statsAfter b (k + 1) = statsAfter b k := by
  unfold statsAfter
  rw [List.take_succ, runStores_append]
  cases hk : b.parsedEvents[k]? with
  | none => simp [runStores]
  | some e =>
      have hlt : k < b.parsedEvents.length := by
        by_contra hge
        simp [List.getElem?_eq_none (Nat.le_of_not_lt hge)] at hk
      have hlen : (b.parsedEvents.take k).length = k := by
        simp [List.length_take, Nat.min_eq_left (Nat.le_of_lt hlt)]
      simp [hlen, runStores, h]

theorem flushEvent_severity (ctx : ParserCtx) (filter : List Str)
    (cur : Option LogEvent) (buf : List Str) :
    ∀ ev ∈ flushEvent ctx filter cur buf, ev.severity ∈ filter := by
  intro ev hev
  cases cur with
  | none => simp [flushEvent] at hev
  | some e =>
      simp only [flushEvent] at hev
      split at hev
      · rename_i hmem
        split at hev <;> simp_all
      · simp at hev

theorem parseLines_severity_mem (ctx : ParserCtx) (pod filePath s3url : Str)
    (filter : List Str) :
    ∀ (lines : List Str) (n : Nat) (cur : Option LogEvent) (buf : List Str),
      ∀ ev ∈ parseLines ctx pod filePath s3url filter lines n cur buf,
        ev.severity ∈ filter := by
  intro lines
  induction lines with
  | nil => intro n cur buf ev hev; exact flushEvent_severity _ _ _ _ ev hev
  | cons l rest ih =>
      intro n cur buf ev hev
      simp only [parseLines] at hev
      split at hev
      · exact ih _ _ _ ev hev
      · split at hev
        · rcases List.mem_append.mp hev with h | h
          · exact flushEvent_severity _ _ _ _ ev h
          · split at h
            · exact ih _ _ _ ev h
            · exact ih _ _ _ ev h
        · split at hev
          · exact ih _ _ _ ev hev
          · exact ih _ _ _ ev hev

theorem qualIdx_length (filter : List Str) :
    ∀ (lines : List Str) (n : Nat),
      (qualIdx filter lines n).length = (lines.filter (qualifies filter)).length := by
  intro lines
  induction lines with
  | nil => intro n; simp [qualIdx]
  | cons l rest ih =>
      intro n
      by_cases hq : qualifies filter l
      · simp [qualIdx, List.filter_cons, hq, ih]
      · simp [qualIdx, List.filter_cons, hq, ih]

/-- The characterisation at the heart of C1: the `(file path, line number)`
pairs of the yielded events are exactly the member path paired with each
qualifying line index, the in-flight event (whose severity is already in
the filter) contributing its own pair first. -/
theorem parseLines_pairs (ctx : ParserCtx) (pod filePath s3url : Str)
    (filter : List Str) :
    ∀ (lines : List Str) (n : Nat) (cur : Option LogEvent) (buf : List Str),
      (∀ e, cur = some e → e.severity ∈ filter ∧ e.raw_file_path = filePath) →
      (parseLines ctx pod filePath s3url filter lines n cur buf).map
          (fun ev => (ev.raw_file_path, ev.raw_line_number))
        = (match cur with
           | some e => [(filePath, e.raw_line_number)]
           | none => []) ++ (qualIdx filter lines n).map (fun k => (filePath, k)) := by
  intro lines
  induction lines with
  | nil =>
      intro n cur buf hinv
      cases cur with
      | none => simp [parseLines, flushEvent, qualIdx]
      | some e =>
          obtain ⟨h1, h2⟩ := hinv e rfl
          simp only [parseLines, flushEvent, qualIdx, if_pos h1]
          split <;> simp [h2]
  | cons l rest ih =>
      intro n cur buf hinv
      simp only [parseLines]
      by_cases hempty : pyStrip l = []
      · rw [if_pos hempty, ih _ _ _ hinv]
        have hq : qualifies filter l = false := by
          simp [qualifies, hempty]
        simp [qualIdx, hq]
      · rw [if_neg hempty]
        by_cases hnew : isNewLogEntry (pyStrip l)
        · rw [if_pos hnew]
          by_cases hsev : detectSeverity (pyStrip l) ∈ filter
          · rw [if_pos hsev]
            have hq : qualifies filter l = true := by
              simp [qualifies, hempty, hnew, hsev]
            have hflush : (flushEvent ctx filter cur buf).map
                (fun ev => (ev.raw_file_path, ev.raw_line_number))
                = (match cur with
                   | some e => [(filePath, e.raw_line_number)]
                   | none => []) := by
              cases cur with
              | none => simp [flushEvent]
              | some e =>
                  obtain ⟨h1, h2⟩ := hinv e rfl
                  simp only [flushEvent, if_pos h1]
                  split <;> simp [h2]
            have hinv' : ∀ e, (some (mkEvent ctx pod filePath s3url (pyStrip l)
                (detectSeverity (pyStrip l)) n) = some e) →
                e.severity ∈ filter ∧ e.raw_file_path = filePath := by
              intro e he
              cases Option.some.inj he
              exact ⟨hsev, rfl⟩
            rw [List.map_append, hflush, ih _ _ _ hinv']
            simp only [qualIdx, hq, if_true, mkEvent, List.map_cons]
            cases cur <;> simp
          · rw [if_neg hsev]
            have hq : qualifies filter l = false := by
              simp [qualifies, hsev]
            have hflush : (flushEvent ctx filter cur buf).map
                (fun ev => (ev.raw_file_path, ev.raw_line_number))
                = (match cur with
                   | some e => [(filePath, e.raw_line_number)]
                   | none => []) := by
              cases cur with
              | none => simp [flushEvent]
              | some e =>
                  obtain ⟨h1, h2⟩ := hinv e rfl
                  simp only [flushEvent, if_pos h1]
                  split <;> simp [h2]
            have hinv' : ∀ e, (none : Option LogEvent) = some e →
                e.severity ∈ filter ∧ e.raw_file_path = filePath := by
              intro e he; cases he
            rw [List.map_append, hflush, ih _ _ _ hinv']
            simp only [qualIdx, hq]
            cases cur <;> simp
        · rw [if_neg hnew]
          have hq : qualifies filter l = false := by
            simp [qualifies, hnew]
          have hrw : qualIdx filter (l :: rest) n = qualIdx filter rest (n + 1) := by
            simp [qualIdx, hq]
          rw [hrw]
          split
          · exact ih _ _ _ hinv
          · exact ih _ _ _ hinv

theorem parseLogContent_pairs (ctx : ParserCtx) (content pod filePath s3url : Str)
    (filter : List Str) :
    (parseLogContent ctx content pod filePath s3url filter).map
        (fun ev => (ev.raw_file_path, ev.raw_line_number))
      = (qualIdx filter (splitNL content) 1).map (fun k => (filePath, k)) := by
  unfold parseLogContent
  rw [parseLines_pairs ctx pod filePath s3url filter _ 1 none []
    (by intro e h; cases h)]
  simp

theorem parseLogContent_length (ctx : ParserCtx) (content pod filePath s3url : Str)
    (filter : List Str) :
    (parseLogContent ctx content pod filePath s3url filter).length
      = countQual filter content := by
  have h := congrArg List.length
    (parseLogContent_pairs ctx content pod filePath s3url filter)
  simpa [List.length_map, qualIdx_length, countQual] using h

theorem parseLogContent_severity (ctx : ParserCtx) (content pod filePath s3url : Str)
    (filter : List Str) :
    ∀ ev ∈ parseLogContent ctx content pod filePath s3url filter,
      ev.severity ∈ filter := by
  intro ev hev
  exact parseLines_severity_mem ctx pod filePath s3url filter _ _ _ _ ev hev

theorem splitOnCh_no_sep (sep : Char) :
    ∀ (s : Str), ∀ l ∈ splitOnCh sep s, sep ∉ l := by
  intro s
  induction s with
  | nil =>
      intro l hl
      simp [splitOnCh] at hl
      simp [hl]
  | cons c rest ih =>
      intro l hl
      simp only [splitOnCh] at hl
      split at hl
      · rcases List.mem_cons.mp hl with rfl | h
        · simp
        · exact ih l h
      · rename_i hc
        cases hsp : splitOnCh sep rest with
        | nil => rw [hsp] at hl; simp at hl; simp [hl, Ne.symm hc]
        | cons hd tl =>
            rw [hsp] at hl
            rcases List.mem_cons.mp hl with rfl | h
            · intro hmem
              rcases List.mem_cons.mp hmem with rfl | hmem2
              · exact hc rfl
              · exact ih hd (by rw [hsp]; exact List.mem_cons_self _ _) hmem2
            · exact ih l (by rw [hsp]; exact List.mem_cons_of_mem _ h)

theorem mem_pyStrip {c : Char} {s : Str} (h : c ∈ pyStrip s) : c ∈ s := by
  unfold pyStrip at h
  rw [List.mem_reverse] at h
  have h2 := (List.dropWhile_sublist (l := (s.dropWhile isPySpace).reverse) isPySpace).mem h
  rw [List.mem_reverse] at h2
  exact (List.dropWhile_sublist (l := s) isPySpace).mem h2

theorem joinNL_count_nl :
    ∀ (ls : List Str), (∀ s ∈ ls, ('\n' : Char) ∉ s) →
      (joinNL ls).count '\n' ≤ ls.length - 1
  | [], _ => by simp [joinNL]
  | [s], h => by
      simp [joinNL, List.count_eq_zero.mpr (h s (by simp))]
  | s :: s2 :: rest, h => by
      have h1 : ('\n' : Char) ∉ s := h s (by simp)
      have ih := joinNL_count_nl (s2 :: rest) (fun x hx => h x (by simp [hx]))
      show (s ++ '\n' :: joinNL (s2 :: rest)).count '\n' ≤ (s :: s2 :: rest).length - 1
      rw [List.count_append, List.count_cons_self, List.count_eq_zero.mpr h1]
      simp only [List.length_cons] at ih ⊢
      omega

theorem flushEvent_bounds (ctx : ParserCtx) (filter : List Str)
    (cur : Option LogEvent) (buf : List Str)
    (hcur : ∀ e, cur = some e →
      e.message.length ≤ ctx.maxMessageLength ∧ e.stack_trace = none)
    (hb50 : buf.length ≤ 50) (hbnl : ∀ s ∈ buf, ('\n' : Char) ∉ s) :
    ∀ ev ∈ flushEvent ctx filter cur buf,
      ev.message.length ≤ ctx.maxMessageLength ∧
      ∀ st, ev.stack_trace = some st →
        st.length ≤ ctx.maxStackTraceLength ∧ st.count '\n' ≤ 49 := by
  intro ev hev
  cases cur with
  | none => simp [flushEvent] at hev
  | some e =>
      obtain ⟨hmsg, hst⟩ := hcur e rfl
      simp only [flushEvent] at hev
      split at hev
      · split at hev
        · simp at hev
          subst hev
          exact ⟨hmsg, fun st h => by rw [hst] at h; cases h⟩
        · simp at hev
          subst hev
          refine ⟨hmsg, ?_⟩
          intro st h
          have hst' : st = (joinNL buf).take ctx.maxStackTraceLength :=
            (Option.some.inj h).symm
          subst hst'
          constructor
          · rw [List.length_take]
            exact Nat.min_le_left _ _
          · calc ((joinNL buf).take ctx.maxStackTraceLength).count '\n'
                ≤ (joinNL buf).count '\n' :=
                  (List.take_sublist _ _).count_le _
              _ ≤ buf.length - 1 := joinNL_count_nl _ hbnl
              _ ≤ 49 := by omega
      · simp at hev

theorem parseLines_bounds (ctx : ParserCtx) (pod filePath s3url : Str)
    (filter : List Str) :
    ∀ (lines : List Str) (n : Nat) (cur : Option LogEvent) (buf : List Str),
      (∀ l ∈ lines, ('\n' : Char) ∉ l) →
      (∀ s ∈ buf, ('\n' : Char) ∉ s) →
      buf.length ≤ 50 →
      (∀ e, cur = some e →
        e.message.length ≤ ctx.maxMessageLength ∧ e.stack_trace = none) →
      ∀ ev ∈ parseLines ctx pod filePath s3url filter lines n cur buf,
        ev.message.length ≤ ctx.maxMessageLength ∧
        ∀ st, ev.stack_trace = some st →
          st.length ≤ ctx.maxStackTraceLength ∧ st.count '\n' ≤ 49 := by
  intro lines
  induction lines with
  | nil =>
      intro n cur buf hln hbnl hb50 hcur ev hev
      exact flushEvent_bounds ctx filter cur buf hcur hb50 hbnl ev hev
  | cons l rest ih =>
      intro n cur buf hln hbnl hb50 hcur ev hev
      have hlnl : ('\n' : Char) ∉ l := hln l (by simp)
      have hrest : ∀ x ∈ rest, ('\n' : Char) ∉ x := fun x hx => hln x (by simp [hx])
      simp only [parseLines] at hev
      split at hev
      · exact ih _ _ _ hrest hbnl hb50 hcur ev hev
      · split at hev
        · rcases List.mem_append.mp hev with h | h
          · exact flushEvent_bounds ctx filter cur buf hcur hb50 hbnl ev h
          · split at h
            · refine ih _ _ _ hrest (by simp) (by simp) ?_ ev h
              intro e he
              cases Option.some.inj he
              refine ⟨?_, rfl⟩
              show ((pyStrip l).take ctx.maxMessageLength).length ≤ _
              rw [List.length_take]
              exact Nat.min_le_left _ _
            · exact ih _ _ _ hrest (by simp) (by simp)
                (fun e he => by cases he) ev h
        · split at hev
          · rename_i hcond
            refine ih _ _ _ hrest ?_ ?_ hcur ev hev
            · intro s hs
              rcases List.mem_append.mp hs with h1 | h1
              · exact hbnl s h1
              · simp at h1
                subst h1
                exact fun hc => hlnl (mem_pyStrip hc)
            · rw [List.length_append]
              have := hcond.2
              simp only [List.length_cons, List.length_nil]
              omega
          · exact ih _ _ _ hrest hbnl hb50 hcur ev hev

/-! ## Claims -/

/-- C1: for an archive whose members are all regular files recognised by
`_identify_log_file`, the number of yielded events equals the total number
of lines classified as new-entry starts by `_is_new_log_entry` whose
detected severity (`_detect_severity`) lies in the normalised filter;
every yielded event's severity is in the filter; and the
(path, line number) pairs of the yielded events enumerate exactly the
qualifying lines, one event per qualifying line, in order — each
qualifying line's event being flushed at the next new-entry line or at
end of content. -/
theorem parse_archive_exact_count (ctx : ParserCtx) (members : List ArchiveMember)
    (s3url : Str) (filterOpt : Option (List Str))
    (hall : ∀ m ∈ members, m.isFile = true ∧ (identifyLogFile m.name).isSome = true) :
    (parseArchive ctx members s3url filterOpt).length
      = (members.map (fun m => countQual (normFilter filterOpt) m.text)).sum ∧
    (∀ ev ∈ parseArchive ctx members s3url filterOpt,
        ev.severity ∈ normFilter filterOpt) ∧
    (parseArchive ctx members s3url filterOpt).map
        (fun ev => (ev.raw_file_path, ev.raw_line_number))
      = members.flatMap (fun m =>
          (qualIdx (normFilter filterOpt) (splitNL m.text) 1).map
            (fun k => (m.name, k))) := by
  revert hall
  induction members with
  | nil => intro _; exact ⟨rfl, by simp [parseArchive], by simp [parseArchive]⟩
  | cons m ms ih =>
      intro hall
      obtain ⟨hfile, hid⟩ := hall m (List.mem_cons_self _ _)
      obtain ⟨⟨pod, lt⟩, hpl⟩ := Option.isSome_iff_exists.mp hid
      obtain ⟨ihlen, ihsev, ihmap⟩ := ih (fun x hx => hall x (List.mem_cons_of_mem _ hx))
      have hhead : parseArchive ctx (m :: ms) s3url filterOpt
          = parseLogContent ctx m.text pod m.name s3url (normFilter filterOpt)
            ++ parseArchive ctx ms s3url filterOpt := by
        unfold parseArchive
        rw [List.flatMap_cons, hfile, hpl]
        simp
      refine ⟨?_, ?_, ?_⟩
      · rw [hhead, List.length_append, parseLogContent_length, ihlen]
        simp
      · intro ev hev
        rw [hhead] at hev
        rcases List.mem_append.mp hev with h | h
        · exact parseLogContent_severity _ _ _ _ _ _ ev h
        · exact ihsev ev h
      · rw [hhead, List.map_append, parseLogContent_pairs, ihmap, List.flatMap_cons]

def c1text : Str :=
  strL "E20260107 18:56:50Z replication failed\nsome continuation\nW20260108 10:00:00 warn only\nF20260109 11:00:00 fatal corruption"

def c1member : ArchiveMember := ⟨strL "logs/oc/oc.ERROR.20260107", true, c1text⟩

theorem parse_archive_exact_count_witness :
    ((parseArchive {} [c1member] (strL "s3://a") none).length
       = ([c1member].map (fun m => countQual (normFilter none) m.text)).sum) ∧
    (parseArchive {} [c1member] (strL "s3://a") none).length = 2 :=
  ⟨(parse_archive_exact_count {} [c1member] (strL "s3://a") none (by decide)).1,
   by decide⟩

/-- C9: every yielded event's message is at most `max_message_length`
characters; its stack trace, when present, is at most
`max_stack_trace_length` characters and is assembled from at most 50
collected continuation lines (hence contains at most 49 newline
separators). -/
theorem parse_archive_bounds (ctx : ParserCtx) (members : List ArchiveMember)
    (s3url : Str) (filterOpt : Option (List Str)) :
    ∀ ev ∈ parseArchive ctx members s3url filterOpt,
      ev.message.length ≤ ctx.maxMessageLength ∧
      ∀ st, ev.stack_trace = some st →
        st.length ≤ ctx.maxStackTraceLength ∧ st.count '\n' ≤ 49 := by
  intro ev hev
  simp only [parseArchive, List.mem_flatMap] at hev
  obtain ⟨m, _, hev⟩ := hev
  split at hev
  · simp at hev
  · split at hev
    · simp at hev
    · exact parseLines_bounds ctx _ m.name s3url _ (splitNL m.text) 1 none []
        (splitOnCh_no_sep '\n' m.text) (by simp) (by simp)
        (fun e he => by cases he) ev hev

def c9member : ArchiveMember :=
  ⟨strL "a/oc/oc.ERROR.1", true, strL "E20260107 18:56:50 error x\n  trace line"⟩

def c9ev : LogEvent :=
  (parseArchive {} [c9member] (strL "u") none).headD { timestamp := 0, pod := [] }

def c9st : Str := c9ev.stack_trace.getD []

theorem parse_archive_bounds_witness :
    c9ev.message.length ≤ 500 ∧ c9st.length ≤ 1000 ∧ c9st.count '\n' ≤ 49 :=
  have h := parse_archive_bounds {} [c9member] (strL "u") none c9ev (by decide)
  ⟨h.1, (h.2 c9st (by decide)).1, (h.2 c9st (by decide)).2⟩

def c6path : Str := strL "var/log/ctrlog/default/oc/oc.ERROR.20260107-185650"

def c6line : Str :=
  strL "E20260107 18:56:50.225841Z replication failed for bucket=my-bucket"

def c6url : Str := strL "s3://nova-logs/logs/store-a/2026/01/07/18/x.tar.gz"

def c6member : ArchiveMember := ⟨c6path, true, c6line⟩

/-- C6 counterexample: with a non-UTC host (UTC offset +3600 s) the
yielded timestamp is 1767808610, not the UTC epoch 1767812210 of
2026-01-07T18:56:50Z — `datetime(...).timestamp()` interprets the glog
civil time as host-local time, so the claim as stated fails off UTC. -/
theorem parser_scenario_timestamp_not_utc :
    ((parseArchive { tz := 3600, now := 0 } [c6member] c6url none).map
        (fun ev => ev.timestamp)) = [1767808610] ∧
    (1767808610 : Int) ≠ 1767812210 :=
  ⟨rfl, by decide⟩

/-- C6 amended: the scenario member yields exactly one event with pod
`OC`, severity `ERROR`, event type `REPLICATION_FAIL`, bucket
`my-bucket`, line number 1, and timestamp `1767812210 - tz`: the epoch of
civil 2026-01-07 18:56:50 interpreted in the host's local timezone, which
equals the UTC epoch 1767812210 exactly when the host runs at UTC
(`tz = 0`). -/
theorem parser_scenario_oc_replication (tz now : Int) :
    parseArchive { tz := tz, now := now } [c6member] c6url none =
      [{ timestamp := 1767812210 - tz
         pod := strL "OC"
         node_name := none
         object_store_uuid := none
         object_store_name := none
         bucket_name := some (strL "my-bucket")
         severity := sERROR
         event_type := some (strL "REPLICATION_FAIL")
         message := c6line
         stack_trace := none
         raw_log_file := c6url
         raw_file_path := c6path
         raw_line_number := 1 }] := rfl

/-- C8: header repair is idempotent — on a file whose bytes already begin
with the gzip magic `0x1F 0x8B`, `_strip_mspctl_header` leaves the bytes
unchanged, hence applying it twice equals applying it once. -/
theorem strip_header_idempotent (rest : List Nat) :
    stripMspctlHeader (0x1f :: 0x8b :: rest) = 0x1f :: 0x8b :: rest ∧
    stripMspctlHeader (stripMspctlHeader (0x1f :: 0x8b :: rest)) =
      stripMspctlHeader (0x1f :: 0x8b :: rest) := by
  have hf : findGzip (0x1f :: 0x8b :: rest) = some 0 := rfl
  have h : stripMspctlHeader (0x1f :: 0x8b :: rest) = 0x1f :: 0x8b :: rest := by
    unfold stripMspctlHeader
    rw [hf]
  exact ⟨h, by rw [h, h]⟩

/-- The retrieved file of the C4 failing input: 100 bytes, none of them
starting a gzip signature. -/
def noGzipBytes : List Nat := List.replicate 100 0

def noGzipEnv : CollectEnv :=
  { hasSshpass := true, prismIpSet := true, nodeArchiveListed := true,
    prismArchiveListed := true, scpOk := true, fileBytes := noGzipBytes }

/-- C4 (code behaviour at the failing input): the downloaded file contains
no gzip signature anywhere, yet `collect_logs_from_cluster` — which
ignores the `False` returned by `_strip_mspctl_header` — still returns the
archive as a successful collection, with the bytes unchanged. -/
theorem missing_gzip_signature_not_failed :
    findGzip noGzipBytes = none ∧
    noGzipBytes.length = 100 ∧
    collectLogsFromCluster noGzipEnv = some noGzipBytes := by decide

/-- C2: every `process_upload` invocation emits the PROCESSING update
first and then exactly one terminal update, COMPLETED or FAILED; the last
recorded status is never PROCESSING. -/
theorem process_upload_terminal_status (b : ProcBehaviour) :
    ((processUpload b).updates.filter isTerminal).length = 1 ∧
    ((processUpload b).updates.map StatusUpdate.status).head? = some sPROCESSING ∧
    (((processUpload b).updates.map StatusUpdate.status).getLast? = some sCOMPLETED ∨
     ((processUpload b).updates.map StatusUpdate.status).getLast? = some sFAILED) ∧
    ((processUpload b).updates.map StatusUpdate.status).getLast? ≠ some sPROCESSING := by
  unfold processUpload
  cases b.downloadError with
  | some m =>
      exact ⟨rfl, rfl, Or.inr rfl,
        (by decide : ¬ ((some sFAILED : Option Str) = some sPROCESSING))⟩
  | none =>
      cases b.parseError with
      | some m =>
          exact ⟨rfl, rfl, Or.inr rfl,
            (by decide : ¬ ((some sFAILED : Option Str) = some sPROCESSING))⟩
      | none =>
          exact ⟨rfl, rfl, Or.inl rfl,
            (by decide : ¬ ((some sCOMPLETED : Option Str) = some sPROCESSING))⟩

/-- The event and behaviour of the C5 counterexample: the download
succeeds, one ERROR event is parsed and stored, then the parser raises. -/
def c5event : LogEvent :=
  { timestamp := 0, pod := strL "OC", severity := sERROR }

def c5beh : ProcBehaviour :=
  { downloadError := none, parsedEvents := [c5event],
    parseError := some (strL "boom"), storeOk := fun _ => true }

/-- C5 counterexample: one ERROR event was stored before the parse
exception (`errors_found = 1` was accumulated), but the FAILED update
carries `stats = none` — `update_upload_status` is called with only the
error message, so no partial counters are written to the record. -/
theorem failed_update_drops_partial_counters :
    (statsAfter c5beh 1).errors_found = 1 ∧
    (statsAfter c5beh 1).events_stored = 1 ∧
    (processUpload c5beh).updates.getLast? =
      some ⟨sFAILED, none, some (strL "Processing error: boom")⟩ := by
  refine ⟨by decide, by decide, rfl⟩

/-- C5 amended: on any failing behaviour the record is transitioned to
FAILED with the (prefixed) exception message in `error_message`, but with
`stats = none`: the partial aggregate counters accumulated before the
failure are not written by the FAILED update. -/
theorem process_upload_failure_update (b : ProcBehaviour)
    (h : b.downloadError.isSome = true ∨ b.parseError.isSome = true) :
    ∃ m, (processUpload b).updates.getLast? = some ⟨sFAILED, none, some m⟩ ∧
      ((∃ e, b.downloadError = some e ∧ m = strL "S3 error: " ++ e) ∨
       (b.downloadError = none ∧ ∃ e, b.parseError = some e ∧
         m = strL "Processing error: " ++ e)) := by
  unfold processUpload
  cases hd : b.downloadError with
  | some m => exact ⟨_, rfl, Or.inl ⟨m, rfl, rfl⟩⟩
  | none =>
      cases hp : b.parseError with
      | some m => exact ⟨_, rfl, Or.inr ⟨rfl, m, rfl, rfl⟩⟩
      | none => simp [hd, hp] at h

theorem process_upload_failure_update_witness :
    ∃ m, (processUpload c5beh).updates.getLast? = some ⟨sFAILED, none, some m⟩ ∧
      ((∃ e, c5beh.downloadError = some e ∧ m = strL "S3 error: " ++ e) ∨
       (c5beh.downloadError = none ∧ ∃ e, c5beh.parseError = some e ∧
         m = strL "Processing error: " ++ e)) :=
  process_upload_failure_update c5beh (Or.inr rfl)

/-- C10: at every point of the store loop the per-severity counters are
bounded by `events_stored`; an event whose `store_log_event` call fails
leaves all counters unchanged; and on the successful path the final
stats are exactly the fold over all parsed events. -/
theorem severity_counters_bounded (b : ProcBehaviour) (k : Nat) :
    sevSum (statsAfter b k) ≤ (statsAfter b k).events_stored ∧
    (b.storeOk k = false → statsAfter b (k + 1) = statsAfter b k) ∧
    (b.downloadError = none → b.parseError = none →
      (processUpload b).result = Except.ok (statsAfter b b.parsedEvents.length)) := by
  refine ⟨?_, statsAfter_succ_of_storeFail b k, ?_⟩
  · exact runStores_sevSum _ _ _ _ (by simp [sevSum])
  · intro hd hp
    unfold processUpload statsAfter
    rw [hd, hp, List.take_length]

theorem processCluster_handoff_char (s : ClusterState) (e : ClusterEnv) :
    (processCluster s e).handoff =
      (!memHitB s e && !dbHitB s e && e.collectOk && e.uploadOk &&
        e.insertOk && e.idFetchOk) := by
  unfold processCluster
  cases hm : memHitB s e <;> cases hd : dbHitB s e <;> cases hc : e.collectOk <;>
    cases hu : e.uploadOk <;> simp [hm, hd, hc, hu]

theorem processCluster_db_char (s : ClusterState) (e : ClusterEnv) :
    (processCluster s e).state.db =
      (if !memHitB s e && !dbHitB s e && e.collectOk && e.uploadOk && e.insertOk
       then s.db ++ [e.now] else s.db) := by
  unfold processCluster
  cases hm : memHitB s e <;> cases hd : dbHitB s e <;> cases hc : e.collectOk <;>
    cases hu : e.uploadOk <;> cases hi : e.insertOk <;> simp [hm, hd, hc, hu, hi]

/-- Two collector invocations over the same single cluster: the second
runs on the state left by the first, after an optional process restart
(which clears the in-process cache but keeps the metadata store). -/
def twoInvocations (s0 : ClusterState) (e1 e2 : ClusterEnv) (restart : Bool) :
    List ClusterOutcome :=
  let r1 := collectInvocation s0 [e1]
  let s1 : ClusterState := if restart then ⟨none, r1.2.db⟩ else r1.2
  let r2 := collectInvocation s1 [e2]
  r1.1 ++ r2.1

/-- C3: two invocations of the collector loop for the same cluster inside
one hour bucket produce at most one successful hand-off, whether or not
the process restarted in between. -/
theorem hourly_dedup_at_most_one_handoff (s0 : ClusterState) (e1 e2 : ClusterEnv)
    (restart : Bool) (hsame : hourEpoch e1.now = hourEpoch e2.now) :
    (twoInvocations s0 e1 e2 restart).countP (fun o => o.handoff) ≤ 1 := by
  unfold twoInvocations
  simp only [collectInvocation, List.cons_append, List.nil_append, List.countP_cons,
    List.countP_nil]
  cases h1 : (processCluster s0 e1).handoff with
  | false =>
      cases (processCluster _ e2).handoff <;> simp
  | true =>
      have hins : e1.now ∈ (processCluster s0 e1).state.db := by
        rw [processCluster_handoff_char] at h1
        rw [processCluster_db_char]
        simp only [Bool.and_eq_true] at h1
        simp [h1.1.1.1.1.1, h1.1.1.1.1.2, h1.1.1.1.2, h1.1.1.2, h1.1.2]
      have hdb2 : ∀ s1 : ClusterState, e1.now ∈ s1.db →
          (processCluster s1 e2).handoff = false := by
        intro s1 hmem
        rw [processCluster_handoff_char]
        have : dbHitB s1 e2 = true := by
          unfold dbHitB
          exact List.any_eq_true.mpr ⟨e1.now, hmem, by
            have h1le : hourEpoch e1.now ≤ e1.now := Nat.sub_le _ _
            simpa [hsame] using hsame ▸ h1le⟩
        simp [this]
      have h2 : (processCluster
          (if restart then (⟨none, (processCluster s0 e1).state.db⟩ : ClusterState)
           else (processCluster s0 e1).state) e2).handoff = false := by
        cases restart with
        | true => exact hdb2 _ (by simpa using hins)
        | false => exact hdb2 _ hins
      simp [h1, h2]

def c3state : ClusterState := ⟨none, []⟩
def c3env1 : ClusterEnv := ⟨7200, true, true, true, true⟩
def c3env2 : ClusterEnv := ⟨10700, true, true, true, true⟩

theorem hourly_dedup_witness :
    hourEpoch c3env1.now = hourEpoch c3env2.now ∧
    (twoInvocations c3state c3env1 c3env2 true).countP (fun o => o.handoff) ≤ 1 :=
  ⟨by decide,
   hourly_dedup_at_most_one_handoff c3state c3env1 c3env2 true (by decide)⟩

def c7env : ClusterEnv :=
  { now := 3600, collectOk := true, uploadOk := true,
    insertOk := false, idFetchOk := false }

/-- C7 counterexample: collection and S3 upload succeed but the hand-off
fails (`create_upload_record` yields no upload id, `trigger_processing`
returns `None`); the loop body nevertheless records the cluster in
`_last_collection`. -/
theorem cache_written_without_handoff :
    (processCluster c3state c7env).handoff = false ∧
    (processCluster c3state c7env).status = ClusterStatus.success ∧
    (processCluster c3state c7env).state.cache = some 3600 ∧
    c3state.cache = none := by decide

/-- C7 amended: the `_last_collection` entry is written exactly on the
DB-dedup-hit path and on the path where collection and S3 upload both
succeeded — regardless of whether the hand-off (upload-record creation
and scheduling) succeeded; it is unchanged on all other paths. -/
theorem cache_write_characterization (s : ClusterState) (e : ClusterEnv) :
    (processCluster s e).state.cache =
      (if !memHitB s e && (dbHitB s e || (e.collectOk && e.uploadOk))
       then some e.now else s.cache) := by
  unfold processCluster
  cases hm : memHitB s e <;> cases hd : dbHitB s e <;> cases hc : e.collectOk <;>
    cases hu : e.uploadOk <;> simp [hm, hd, hc, hu]

def c10beh : ProcBehaviour :=
  { downloadError := none, parsedEvents := [c5event],
    parseError := none, storeOk := fun _ => false }

theorem severity_counters_bounded_witness :
    (sevSum (statsAfter c10beh 0) ≤ (statsAfter c10beh 0).events_stored ∧
      statsAfter c10beh 1 = statsAfter c10beh 0) ∧
    (processUpload c10beh).result = Except.ok (statsAfter c10beh 1) :=
  ⟨⟨(severity_counters_bounded c10beh 0).1,
    (severity_counters_bounded c10beh 0).2.1 rfl⟩,
   by simpa using (severity_counters_bounded c10beh 1).2.2 rfl rfl⟩

end Nova
